import Mathlib

/-!
Verification of the ReaRec LETTER data pipeline.

Shallow embedding of two components:

* `src/helpers/LETTERReader.py` — the leave-one-out sample generator
  (`_process_letter_data`, `_convert_to_rearec_format`,
  `_dataframe_to_tensors`, `get_item_tokens`, `get_item_features`).
* `src/helpers/preprocess_letter_data.py` — the canonical interaction
  builder (`load_yelp_data`, `filter_data`, `create_remapped_data`,
  `create_absolute_timestamp_split`, `create_user_sequences`, `main`).

Python lists become `List`, dicts become association lists
`List (key × value)` (insertion-ordered, like Python dicts), integer ids
become `Nat`.  The constant `MAX_ITEM_SEQ_LEN` comes from
`utils/constants.py`, which is not part of the sources; it is threaded
through as an explicit `maxLen : Nat` parameter.
-/

namespace ReaRec

/-- Python `range(a, b)` as a list: `[a, a+1, ..., b-1]`, empty when `b ≤ a`. -/
def pyRange (a b : Nat) : List Nat :=
  (List.range b).drop a

/-- One generated sample before tensorization: the dict
`{USER_ID: uid, ITEM_ID: target, ITEM_SEQ: context}` appended to a split list
in `_convert_to_rearec_format`. -/
structure Sample where
  userId : Nat
  itemId : Nat
  itemSeq : List Nat
  deriving Repr, DecidableEq

/-- The per-user body of the loop in `_convert_to_rearec_format`
(LETTERReader.py lines 120–149): users with fewer than 3 items are skipped;
otherwise `train_items = items[:-2]`, train samples for
`i in range(1, len(train_items))` with target `train_items[i]` and context
`train_items[:i]`; one valid sample (target `items[-2]`, context `items[:-2]`);
one test sample (target `items[-1]`, context `items[:-1]`). -/
def userSamples (uid : Nat) (items : List Nat) :
    List Sample × List Sample × List Sample :=
  if items.length < 3 then ([], [], [])
  else
    let trainItems := items.take (items.length - 2)
    let train := (pyRange 1 trainItems.length).map fun i =>
      ⟨uid, trainItems.getD i 0, trainItems.take i⟩
    let valid := [⟨uid, items.getD (items.length - 2) 0,
      items.take (items.length - 2)⟩]
    let test := [⟨uid, items.getD (items.length - 1) 0,
      items.take (items.length - 1)⟩]
    (train, valid, test)

/-- `_convert_to_rearec_format`, sample-generation phase: the three split
lists accumulated over all users of `processed_inters` in dict order. -/
def convert_to_rearec_format (inters : List (Nat × List Nat)) :
    List Sample × List Sample × List Sample :=
  (inters.flatMap fun p => (userSamples p.1 p.2).1,
   inters.flatMap fun p => (userSamples p.1 p.2).2.1,
   inters.flatMap fun p => (userSamples p.1 p.2).2.2)

/-- Python slice `x[-m:]` (the truncation `lambda x: x[-MAX_ITEM_SEQ_LEN:]`).
For `m = 0` the slice `x[-0:]` is `x[0:]`, i.e. the whole list. -/
def pySliceLast (m : Nat) (xs : List Nat) : List Nat :=
  if m = 0 then xs else xs.drop (xs.length - m)

/-- `torch.nn.functional.pad(seq, (m - len(seq), 0), value = padVal)`:
left-pads up to length `m`; a negative pad amount removes elements from the
left instead. -/
def leftPad (m : Nat) (padVal : Nat) (xs : List Nat) : List Nat :=
  if xs.length ≤ m then List.replicate (m - xs.length) padVal ++ xs
  else xs.drop (xs.length - m)

/-- One row of the tensorized table built by `_dataframe_to_tensors`:
the four fields `USER_ID`, `ITEM_ID` (target), `ITEM_SEQ` (padded context)
and `ITEM_SEQ_LEN` (context length). -/
structure Row where
  userId : Nat
  targetItemId : Nat
  paddedContext : List Nat
  contextLength : Nat
  deriving Repr, DecidableEq

/-- Tensorization of one sample: truncation to the last `maxLen` items
(LETTERReader.py line 157), recording the post-truncation length (line 158),
then left-padding with `n_items - 1` (lines 179–182). -/
def toRow (maxLen nItems : Nat) (s : Sample) : Row :=
  let trunc := pySliceLast maxLen s.itemSeq
  ⟨s.userId, s.itemId, leftPad maxLen (nItems - 1) trunc, trunc.length⟩

/-- One entry of `self.data_dict`: `some rows` models the tensor dict built
from a nonempty DataFrame; `none` models the bare empty dict `{}` assigned
when a split has no samples (LETTERReader.py lines 162–163). -/
def makeSplit (maxLen nItems : Nat) (samples : List Sample) :
    Option (List Row) :=
  if samples.isEmpty then none
  else some (samples.map (toRow maxLen nItems))

/-- `all_items` of `_process_letter_data`: every item id occurring in any
user's interaction list. -/
def allItems (inters : List (Nat × List Nat)) : List Nat :=
  inters.flatMap Prod.snd

/-- `self.n_users = len(processed_inters) + 1` (including `[PAD]`). -/
def n_users (inters : List (Nat × List Nat)) : Nat :=
  inters.length + 1

/-- `self.n_items = max(all_items) + 2` (including `[PAD]`).  Python's
`max` over a set equals the fold below whenever `all_items` is nonempty
(it raises on an empty set, so theorems carry that hypothesis). -/
def n_items (inters : List (Nat × List Nat)) : Nat :=
  (allItems inters).foldl max 0 + 2

/-- `_process_letter_data` followed by `_convert_to_rearec_format`:
the three split tables of `self.data_dict`. -/
def process_letter_data (maxLen : Nat) (inters : List (Nat × List Nat)) :
    Option (List Row) × Option (List Row) × Option (List Row) :=
  let n := n_items inters
  let s := convert_to_rearec_format inters
  (makeSplit maxLen n s.1, makeSplit maxLen n s.2.1, makeSplit maxLen n s.2.2)

/-- The rows of one split table (`none`, the empty dict, has no rows). -/
def splitRows (t : Option (List Row)) : List Row :=
  t.getD []

/-- Every row emitted by the generator, across the three splits. -/
def allRows (p : Option (List Row) × Option (List Row) × Option (List Row)) :
    List Row :=
  splitRows p.1 ++ splitRows p.2.1 ++ splitRows p.2.2

/-- An item feature record of `<dataset>.item.json`. -/
structure ItemFeature where
  title : String
  description : String
  deriving Repr, DecidableEq

/-- `get_item_tokens`: for each queried id present in `self.indices`, in
query order, the id with its token list; absent ids are omitted. -/
def get_item_tokens (indices : List (Nat × List String))
    (itemIds : List Nat) : List (Nat × List String) :=
  itemIds.filterMap fun id => (List.lookup id indices).map fun v => (id, v)

/-- `get_item_features`: `none` models the Python `None` returned when
`use_item_features` is off; otherwise the queried ids present in
`self.item_features`, absent ids omitted. -/
def get_item_features (useItemFeatures : Bool)
    (itemFeatures : List (Nat × ItemFeature)) (itemIds : List Nat) :
    Option (List (Nat × ItemFeature)) :=
  if useItemFeatures then
    some (itemIds.filterMap fun id =>
      (List.lookup id itemFeatures).map fun v => (id, v))
  else none

/-! ### Canonical interaction builder (`preprocess_letter_data.py`) -/

/-- One line of `yelp_academic_dataset_review.json` as parsed by
`json.loads`: each accessed field may be absent. -/
structure YelpRecord where
  user_id : Option String
  business_id : Option String
  stars : Option Int
  date : Option Nat
  deriving Repr, DecidableEq

/-- One harmonized interaction dict appended by `load_yelp_data`. -/
structure YelpInter where
  user_id : String
  item_id : String
  rating : Int
  timestamp : Nat
  deriving Repr, DecidableEq

/-- Python `data[name]`: the value when present, a `KeyError`
(carrying the missing key) otherwise. -/
def getField (name : String) (v : Option α) : Except String α :=
  match v with
  | some x => Except.ok x
  | none => Except.error name

/-- The per-line body of the loop in `load_yelp_data` (lines 83–90):
builds the harmonized dict, raising `KeyError` on a missing field. -/
def load_yelp_line (d : YelpRecord) : Except String YelpInter := do
  let u ← getField "user_id" d.user_id
  let b ← getField "business_id" d.business_id
  let s ← getField "stars" d.stars
  let t ← getField "date" d.date
  pure ⟨u, b, s, t⟩

/-- The accumulation loop of `load_yelp_data` (lines 81–90): harmonize
each line in order; a raised `KeyError` aborts the whole loop. -/
def load_yelp_rows : List YelpRecord → Except String (List YelpInter)
  | [] => Except.ok []
  | d :: rest =>
    match load_yelp_line d with
    | Except.error e => Except.error e
    | Except.ok x =>
      match load_yelp_rows rest with
      | Except.error e => Except.error e
      | Except.ok xs => Except.ok (x :: xs)

/-- `load_yelp_data` after the file read: accumulate all lines, then keep
rows with `rating > rating_threshold` (strict). -/
def load_yelp_data (lines : List YelpRecord) (ratingThreshold : Int) :
    Except String (List YelpInter) :=
  match load_yelp_rows lines with
  | Except.error e => Except.error e
  | Except.ok interactions =>
    Except.ok (interactions.filter fun r => ratingThreshold < r.rating)

/-- A rating-filtered interaction row of the builder's DataFrame. -/
structure Inter where
  user : Nat
  item : Nat
  ts : Nat
  deriving Repr, DecidableEq

/-- `filter_data`: keep users with at least `minInteractions` rows (counted
on the incoming frame), then items with at least `minItems` rows (counted
on the user-filtered frame); a single pass, not iterated. -/
def filter_data (df : List Inter) (minInteractions minItems : Nat) :
    List Inter :=
  let df1 := df.filter fun r =>
    minInteractions ≤ df.countP fun s => s.user == r.user
  df1.filter fun r => minItems ≤ df1.countP fun s => s.item == r.item

/-- `sorted(frame.unique())`: distinct values in ascending order. -/
def uniqueSorted (xs : List Nat) : List Nat :=
  List.insertionSort (· ≤ ·) xs.dedup

/-- `create_remapped_data`: map user and item ids to their positions in the
ascending list of distinct original ids. -/
def create_remapped_data (df : List Inter) : List Inter :=
  let us := uniqueSorted (df.map (·.user))
  let its := uniqueSorted (df.map (·.item))
  df.map fun r => ⟨us.indexOf r.user, its.indexOf r.item, r.ts⟩

/-- `df.sort_values('timestamp')`, modeled as a stable sort on the
timestamp key (ties keep input order). -/
def sortByTimestamp (df : List Inter) : List Inter :=
  List.insertionSort (fun a b => a.ts ≤ b.ts) df

/-- `create_absolute_timestamp_split`: sort by timestamp and cut at row
indices `trainEnd` and `validEnd`.  The Python code computes these as
`int(n * 0.7)` and `int(n * (0.7 + 0.1))` in IEEE double arithmetic
(for `n = 10` rows CPython yields `7` and `7`); the indices are taken
here as explicit parameters. -/
def create_absolute_timestamp_split (df : List Inter)
    (trainEnd validEnd : Nat) : List Inter × List Inter × List Inter :=
  let s := sortByTimestamp df
  (s.take trainEnd, (s.drop trainEnd).take (validEnd - trainEnd),
   s.drop validEnd)

/-- `create_user_sequences`: group by user (pandas iterates groups in
ascending key order, each group keeping frame order), stably sort each
group by timestamp, and project to item ids. -/
def create_user_sequences (df : List Inter) : List (Nat × List Nat) :=
  (uniqueSorted (df.map (·.user))).map fun u =>
    (u, (sortByTimestamp (df.filter fun r => r.user == u)).map (·.item))

/-- `d[k] = v` on a Python dict: overwrite in place when the key exists,
append otherwise. -/
def setKey (m : List (Nat × List Nat)) (k : Nat) (v : List Nat) :
    List (Nat × List Nat) :=
  if m.any fun p => p.1 == k then
    m.map fun p => if p.1 == k then (k, v) else p
  else m ++ [(k, v)]

/-- `d.update(entries)`: each entry of `entries` overwrites (or adds) its
key in `d`. -/
def dictUpdate (m entries : List (Nat × List Nat)) : List (Nat × List Nat) :=
  entries.foldl (fun acc e => setKey acc e.1 e.2) m

/-- `main` from the frequency filter to `all_sequences` (lines 244–260):
filter, remap, split by absolute timestamp, build per-split user
sequences, then merge the three dicts with `dict.update` — later splits
overwrite a user's earlier-split sequence. -/
def mainInter (df : List Inter)
    (minInteractions minItems trainEnd validEnd : Nat) :
    List (Nat × List Nat) :=
  let f := filter_data df minInteractions minItems
  let r := create_remapped_data f
  let s := create_absolute_timestamp_split r trainEnd validEnd
  dictUpdate
    (dictUpdate (dictUpdate [] (create_user_sequences s.1))
      (create_user_sequences s.2.1))
    (create_user_sequences s.2.2)

/-- The spec's description of `inter.json` content: for each surviving
user, the timestamp-sorted projection of every filtered interaction of
that user, none omitted (spec §4.1: group by user over the whole filtered
set, sort each group by timestamp, project to item ids). -/
def specUserSequences (df : List Inter) (minInteractions minItems : Nat) :
    List (Nat × List Nat) :=
  create_user_sequences (create_remapped_data
    (filter_data df minInteractions minItems))

/-- The concrete builder input exhibiting the `dict.update` overwrite:
ten rating-filtered interactions, user 0 interacting at timestamps 0
and 9 (items 0 and 9), users 1–8 once each at timestamps 1–8. -/
def c1Input : List Inter :=
  ⟨0, 0, 0⟩ :: (List.range 8).map (fun k => ⟨k + 1, k + 1, k + 1⟩) ++
    [⟨0, 9, 9⟩]

/-! ### Helper lemmas -/

theorem pyRange_length (a b : Nat) : (pyRange a b).length = b - a := by
  simp [pyRange]

theorem mem_pyRange {i a b : Nat} : i ∈ pyRange a b ↔ a ≤ i ∧ i < b := by
  unfold pyRange
  rw [List.mem_iff_getElem]
  constructor
  · rintro ⟨j, hj, rfl⟩
    simp only [List.length_drop, List.length_range] at hj
    simp only [List.getElem_drop, List.getElem_range]
    omega
  · rintro ⟨h1, h2⟩
    refine ⟨i - a, ?_, ?_⟩
    · simp only [List.length_drop, List.length_range]
      omega
    · simp only [List.getElem_drop, List.getElem_range]
      omega

theorem convert_single (uid : Nat) (S : List Nat) :
    convert_to_rearec_format [(uid, S)] = userSamples uid S := by
  simp [convert_to_rearec_format]

/-! ### Claim theorems -/

/-- Claim C1 (code bug evaluation).  On the concrete ten-interaction input
`c1Input`, the builder's `main` pipeline (timestamp split, per-split user
sequences, `dict.update` merge) maps user 0 to `[9]` only — the
interaction at timestamp 0 is lost, because `dict.update` overwrites the
user's train-split sequence with the test-split one — whereas the spec's
description (every filtered interaction of the user, timestamp-sorted)
yields `[0, 9]`. -/
theorem C1_code_eval :
    List.lookup 0 (mainInter c1Input 1 1 7 7) = some [9] ∧
    List.lookup 0 (specUserSequences c1Input 1 1) = some [0, 9] := by
  constructor
  · decide
  · decide

/-- Claim C2 counterexample.  For the sequence `[0,1,2,3,4,5]` the train
targets are `[1, 2, 3]` — the window index starts at 1, not 2 — refuting
the claimed targets `[2, 3]`. -/
theorem C2_counterexample :
    (convert_to_rearec_format [(0, [0, 1, 2, 3, 4, 5])]).1.map Sample.itemId
        = [1, 2, 3] ∧
    (convert_to_rearec_format [(0, [0, 1, 2, 3, 4, 5])]).1.map Sample.itemId
        ≠ [2, 3] := by
  constructor
  · decide
  · decide

/-- Claim C2 (amended).  For every user sequence `S` of length `L ≥ 3`,
the train split consists exactly of the rows with target `S[i]` for `i`
in `[1, L-3]` inclusive (0-based), in increasing window order, each
paired with context `S[0 : i]`. -/
theorem C2_amended (uid : Nat) (S : List Nat) (h : 3 ≤ S.length) :
    (convert_to_rearec_format [(uid, S)]).1 =
      (pyRange 1 (S.length - 2)).map fun i =>
        Sample.mk uid (S.getD i 0) (S.take i) := by
  rw [convert_single]
  unfold userSamples
  rw [if_neg (by omega)]
  have hlen : (S.take (S.length - 2)).length = S.length - 2 := by
    simp only [List.length_take]
    omega
  simp only [hlen]
  apply List.map_congr_left
  intro i hi
  obtain ⟨hi1, hi2⟩ := mem_pyRange.mp hi
  have hgd : (S.take (S.length - 2)).getD i 0 = S.getD i 0 := by
    simp only [List.getD_eq_getElem?_getD, List.getElem?_take_of_lt hi2]
  have htk : (S.take (S.length - 2)).take i = S.take i := by
    rw [List.take_take, Nat.min_eq_left (by omega)]
  rw [hgd, htk]

theorem C2_witness :
    3 ≤ ([0, 1, 2, 3, 4, 5] : List Nat).length ∧
    (convert_to_rearec_format [(0, [0, 1, 2, 3, 4, 5])]).1 =
      (pyRange 1 (([0, 1, 2, 3, 4, 5] : List Nat).length - 2)).map fun i =>
        Sample.mk 0 (([0, 1, 2, 3, 4, 5] : List Nat).getD i 0)
          (([0, 1, 2, 3, 4, 5] : List Nat).take i) :=
  ⟨by decide, C2_amended 0 [0, 1, 2, 3, 4, 5] (by decide)⟩

/-- Claim C3 counterexample.  For a single user with exactly 3 items the
train split has zero generated rows, and the generator assigns it the
bare empty dict (`none`) — not a zero-row table that still carries the
four fields (`some []` in this model). -/
theorem C3_counterexample :
    (process_letter_data 4 [(0, [0, 1, 2])]).1 = none ∧
    (process_letter_data 4 [(0, [0, 1, 2])]).1 ≠ some [] := by
  constructor
  · rfl
  · decide

/-- Claim C3 (amended).  Provided the artifact contains at least one item
id — otherwise the statistics phase raises `ValueError` at
`max(all_items)` (LETTERReader.py line 101) before any split is
assigned — a split with zero generated rows is reported as the
explicitly empty dict (`none`), with no fields at all, and generation
does not fail: when every user is too short, all three splits are the
empty dict. -/
theorem C3_amended (maxLen : Nat) (inters : List (Nat × List Nat))
    (hne : allItems inters ≠ [])
    (h : ∀ p ∈ inters, p.2.length < 3) :
    process_letter_data maxLen inters = (none, none, none) := by
  clear hne
  have key : ∀ p ∈ inters, userSamples p.1 p.2 = ([], [], []) := by
    intro p hp
    unfold userSamples
    rw [if_pos (h p hp)]
  have h1 : (convert_to_rearec_format inters).1 = [] :=
    List.flatMap_eq_nil_iff.mpr fun p hp => by rw [key p hp]
  have h2 : (convert_to_rearec_format inters).2.1 = [] :=
    List.flatMap_eq_nil_iff.mpr fun p hp => by rw [key p hp]
  have h3 : (convert_to_rearec_format inters).2.2 = [] :=
    List.flatMap_eq_nil_iff.mpr fun p hp => by rw [key p hp]
  unfold process_letter_data
  dsimp only
  rw [h1, h2, h3]
  rfl

theorem C3_witness :
    allItems [(0, [0, 1])] ≠ [] ∧
    (∀ p ∈ ([(0, [0, 1])] : List (Nat × List Nat)), p.2.length < 3) ∧
    process_letter_data 4 [(0, [0, 1])] = (none, none, none) :=
  ⟨by decide, by decide, C3_amended 4 [(0, [0, 1])] (by decide) (by decide)⟩

/-- Claim C5.  For a user sequence of length `L` the generator emits
`L - 3` train rows in truncated subtraction (that is, `max(0, L-3)`),
and one valid and one test row when `L ≥ 3`, zero rows in every split
when `L < 3`. -/
theorem C5_split_sizes (uid : Nat) (S : List Nat) :
    (convert_to_rearec_format [(uid, S)]).1.length = S.length - 3 ∧
    (convert_to_rearec_format [(uid, S)]).2.1.length =
      (if S.length < 3 then 0 else 1) ∧
    (convert_to_rearec_format [(uid, S)]).2.2.length =
      (if S.length < 3 then 0 else 1) := by
  rw [convert_single]
  unfold userSamples
  split_ifs with h
  · refine ⟨?_, by simp [h], by simp [h]⟩
    simp only [List.length_nil]
    omega
  · refine ⟨?_, by simp [h], by simp [h]⟩
    simp only [List.length_map, pyRange_length, List.length_take]
    omega

/-- Claim C6.  For a sequence `S` of length `L ≥ 3`, the valid row has
target `S[L-2]` with pre-truncation context `S[0 : L-2]` and the test row
has target `S[L-1]` with context `S[0 : L-1]`; each context is strictly
shorter than its target's position bound, so the held-out target
positions never occur inside their own split's context. -/
theorem C6_holdout (uid : Nat) (S : List Nat) (h : 3 ≤ S.length) :
    (convert_to_rearec_format [(uid, S)]).2.1 =
      [Sample.mk uid (S.getD (S.length - 2) 0) (S.take (S.length - 2))] ∧
    (convert_to_rearec_format [(uid, S)]).2.2 =
      [Sample.mk uid (S.getD (S.length - 1) 0) (S.take (S.length - 1))] ∧
    (S.take (S.length - 2)).length < S.length - 1 ∧
    (S.take (S.length - 1)).length < S.length := by
  rw [convert_single]
  unfold userSamples
  rw [if_neg (by omega)]
  refine ⟨rfl, rfl, ?_, ?_⟩ <;> simp only [List.length_take] <;> omega

theorem C6_witness :
    (convert_to_rearec_format [(0, [0, 1, 2])]).2.1 = [Sample.mk 0 1 [0]] ∧
    (convert_to_rearec_format [(0, [0, 1, 2])]).2.2 =
      [Sample.mk 0 2 [0, 1]] ∧
    (1 : Nat) < 2 ∧ (2 : Nat) < 3 :=
  C6_holdout 0 [0, 1, 2] (by decide)

/-! ### Further helper lemmas: truncation, padding, row provenance -/

theorem getD_mem {l : List Nat} {i : Nat} (h : i < l.length) (d : Nat) :
    l.getD i d ∈ l := by
  rw [List.getD_eq_getElem?_getD, List.getElem?_eq_getElem h]
  exact List.getElem_mem h

theorem pySliceLast_eq_drop {m : Nat} (hm : 1 ≤ m) (xs : List Nat) :
    pySliceLast m xs = xs.drop (xs.length - m) := by
  unfold pySliceLast
  rw [if_neg (by omega)]

theorem pySliceLast_length {m : Nat} (hm : 1 ≤ m) (xs : List Nat) :
    (pySliceLast m xs).length = min xs.length m := by
  rw [pySliceLast_eq_drop hm, List.length_drop]
  omega

theorem leftPad_of_le {m : Nat} {xs : List Nat} (h : xs.length ≤ m) (v : Nat) :
    leftPad m v xs = List.replicate (m - xs.length) v ++ xs := by
  unfold leftPad
  rw [if_pos h]

theorem toRow_contextLength (maxLen nItems : Nat) (s : Sample)
    (hm : 1 ≤ maxLen) :
    (toRow maxLen nItems s).contextLength = min s.itemSeq.length maxLen := by
  unfold toRow
  exact pySliceLast_length hm _

theorem toRow_padded (maxLen nItems : Nat) (s : Sample) (hm : 1 ≤ maxLen) :
    (toRow maxLen nItems s).paddedContext =
      List.replicate (maxLen - min s.itemSeq.length maxLen) (nItems - 1) ++
        s.itemSeq.drop (s.itemSeq.length - maxLen) := by
  unfold toRow
  dsimp only
  rw [leftPad_of_le (by rw [pySliceLast_length hm]; omega),
    pySliceLast_length hm, pySliceLast_eq_drop hm]

/-- Every generated row is the tensorization of a sample from one of the
three split lists. -/
theorem mem_allRows {inters : List (Nat × List Nat)} {maxLen : Nat} {r : Row}
    (hr : r ∈ allRows (process_letter_data maxLen inters)) :
    ∃ s : Sample,
      (s ∈ (convert_to_rearec_format inters).1 ∨
       s ∈ (convert_to_rearec_format inters).2.1 ∨
       s ∈ (convert_to_rearec_format inters).2.2) ∧
      r = toRow maxLen (n_items inters) s := by
  have key : ∀ l : List Sample,
      r ∈ splitRows (makeSplit maxLen (n_items inters) l) →
      ∃ s ∈ l, r = toRow maxLen (n_items inters) s := by
    intro l hl
    unfold makeSplit splitRows at hl
    split_ifs at hl with hemp
    · simp at hl
    · simp only [Option.getD_some] at hl
      obtain ⟨s, hs, heq⟩ := List.mem_map.mp hl
      exact ⟨s, hs, heq.symm⟩
  unfold allRows process_letter_data at hr
  dsimp only at hr
  rw [List.mem_append, List.mem_append] at hr
  rcases hr with (h | h) | h
  · obtain ⟨s, hs, he⟩ := key _ h
    exact ⟨s, Or.inl hs, he⟩
  · obtain ⟨s, hs, he⟩ := key _ h
    exact ⟨s, Or.inr (Or.inl hs), he⟩
  · obtain ⟨s, hs, he⟩ := key _ h
    exact ⟨s, Or.inr (Or.inr hs), he⟩

/-- Every sample of the three split lists comes from some user's entry. -/
theorem convert_mem {inters : List (Nat × List Nat)} {s : Sample}
    (hs : s ∈ (convert_to_rearec_format inters).1 ∨
      s ∈ (convert_to_rearec_format inters).2.1 ∨
      s ∈ (convert_to_rearec_format inters).2.2) :
    ∃ p ∈ inters,
      s ∈ (userSamples p.1 p.2).1 ∨ s ∈ (userSamples p.1 p.2).2.1 ∨
        s ∈ (userSamples p.1 p.2).2.2 := by
  unfold convert_to_rearec_format at hs
  dsimp only at hs
  rcases hs with h | h | h
  · obtain ⟨p, hp, hmem⟩ := List.mem_flatMap.mp h
    exact ⟨p, hp, Or.inl hmem⟩
  · obtain ⟨p, hp, hmem⟩ := List.mem_flatMap.mp h
    exact ⟨p, hp, Or.inr (Or.inl hmem)⟩
  · obtain ⟨p, hp, hmem⟩ := List.mem_flatMap.mp h
    exact ⟨p, hp, Or.inr (Or.inr hmem)⟩

/-- The target of every per-user sample is one of that user's items. -/
theorem userSamples_itemId_mem {uid : Nat} {items : List Nat} {s : Sample}
    (hs : s ∈ (userSamples uid items).1 ∨ s ∈ (userSamples uid items).2.1 ∨
      s ∈ (userSamples uid items).2.2) :
    s.itemId ∈ items := by
  unfold userSamples at hs
  by_cases h3 : items.length < 3
  · rw [if_pos h3] at hs
    simp at hs
  · rw [if_neg h3] at hs
    dsimp only at hs
    rcases hs with h | h | h
    · obtain ⟨i, hi, heq⟩ := List.mem_map.mp h
      obtain ⟨hi1, hi2⟩ := mem_pyRange.mp hi
      rw [← heq]
      exact List.take_subset _ _ (getD_mem hi2 0)
    · rw [List.mem_singleton] at h
      rw [h]
      exact getD_mem (by omega) 0
    · rw [List.mem_singleton] at h
      rw [h]
      exact getD_mem (by omega) 0

/-- The pre-truncation context of every per-user sample is nonempty. -/
theorem userSamples_itemSeq_ne_nil {uid : Nat} {items : List Nat} {s : Sample}
    (hs : s ∈ (userSamples uid items).1 ∨ s ∈ (userSamples uid items).2.1 ∨
      s ∈ (userSamples uid items).2.2) :
    s.itemSeq ≠ [] := by
  unfold userSamples at hs
  by_cases h3 : items.length < 3
  · rw [if_pos h3] at hs
    simp at hs
  · rw [if_neg h3] at hs
    dsimp only at hs
    have hlen : 0 < s.itemSeq.length → s.itemSeq ≠ [] := by
      intro hp
      exact List.ne_nil_of_length_pos hp
    rcases hs with h | h | h
    · obtain ⟨i, hi, heq⟩ := List.mem_map.mp h
      obtain ⟨hi1, hi2⟩ := mem_pyRange.mp hi
      apply hlen
      rw [← heq]
      dsimp only
      simp only [List.length_take]
      simp only [List.length_take] at hi2
      omega
    · rw [List.mem_singleton] at h
      apply hlen
      rw [h]
      simp only [List.length_take]
      omega
    · rw [List.mem_singleton] at h
      apply hlen
      rw [h]
      simp only [List.length_take]
      omega

/-! ### Fold-max helper lemmas for the dataset statistics -/

theorem le_foldl_max (l : List Nat) (a : Nat) : a ≤ l.foldl max a := by
  induction l generalizing a with
  | nil => simp
  | cons x xs ih =>
    simp only [List.foldl_cons]
    exact le_trans (Nat.le_max_left a x) (ih (max a x))

theorem mem_le_foldl_max {l : List Nat} {x : Nat} (hx : x ∈ l) (a : Nat) :
    x ≤ l.foldl max a := by
  induction l generalizing a with
  | nil => cases hx
  | cons y ys ih =>
    simp only [List.foldl_cons]
    rcases List.mem_cons.mp hx with rfl | h
    · exact le_trans (Nat.le_max_right a x) (le_foldl_max ys _)
    · exact ih h _

theorem foldl_max_eq_or_mem (l : List Nat) (a : Nat) :
    l.foldl max a = a ∨ l.foldl max a ∈ l := by
  induction l generalizing a with
  | nil => exact Or.inl rfl
  | cons x xs ih =>
    simp only [List.foldl_cons]
    rcases ih (max a x) with h | h
    · rw [h]
      rcases max_choice a x with h2 | h2
      · exact Or.inl h2
      · rw [h2]
        exact Or.inr (List.mem_cons_self x xs)
    · exact Or.inr (List.mem_cons_of_mem x h)

/-- Key membership in the id-restricted lookup used by both auxiliary
readers. -/
theorem lookupSubset_keys {α : Type} (m : List (Nat × α)) (ids : List Nat)
    (id : Nat) :
    (id ∈ (ids.filterMap fun i =>
        (List.lookup i m).map fun v => (i, v)).map Prod.fst ↔
      id ∈ ids ∧ (List.lookup id m).isSome) := by
  simp only [List.mem_map, List.mem_filterMap, Option.map_eq_some']
  constructor
  · rintro ⟨p, ⟨a, ha, v, hv, hpv⟩, hp1⟩
    rw [← hpv] at hp1
    dsimp only at hp1
    rw [← hp1]
    exact ⟨ha, by rw [hv]; rfl⟩
  · rintro ⟨hid, hsome⟩
    obtain ⟨v, hv⟩ := Option.isSome_iff_exists.mp hsome
    exact ⟨(id, v), ⟨id, hid, v, hv, rfl⟩, rfl⟩

/-- Claim C7.  Every generated row comes from a sample whose pre-truncation
context `s.itemSeq` it encodes: `context_length ≤ MAX_SEQ_LEN`,
`context_length` is the length of the truncated context, the padded
context has exactly `MAX_SEQ_LEN` positions, its leading positions are
`PAD_ITEM = n_items - 1`, and its last `context_length` positions are the
most recent `context_length` elements of the true prefix. -/
theorem C7_truncation_padding (inters : List (Nat × List Nat))
    (maxLen : Nat) (r : Row) (hm : 1 ≤ maxLen)
    (hr : r ∈ allRows (process_letter_data maxLen inters)) :
    ∃ s : Sample,
      (s ∈ (convert_to_rearec_format inters).1 ∨
       s ∈ (convert_to_rearec_format inters).2.1 ∨
       s ∈ (convert_to_rearec_format inters).2.2) ∧
      r.userId = s.userId ∧
      r.targetItemId = s.itemId ∧
      r.contextLength = min s.itemSeq.length maxLen ∧
      r.contextLength ≤ maxLen ∧
      r.paddedContext.length = maxLen ∧
      r.paddedContext.take (maxLen - r.contextLength) =
        List.replicate (maxLen - r.contextLength) (n_items inters - 1) ∧
      r.paddedContext.drop (maxLen - r.contextLength) =
        s.itemSeq.drop (s.itemSeq.length - r.contextLength) := by
  obtain ⟨s, hsplit, rfl⟩ := mem_allRows hr
  have hcl := toRow_contextLength maxLen (n_items inters) s hm
  have hpad := toRow_padded maxLen (n_items inters) s hm
  have hmin : min s.itemSeq.length maxLen ≤ maxLen := Nat.min_le_right _ _
  refine ⟨s, hsplit, rfl, rfl, hcl, ?_, ?_, ?_, ?_⟩
  · rw [hcl]
    exact hmin
  · rw [hpad]
    simp only [List.length_append, List.length_replicate, List.length_drop]
    omega
  · rw [hpad, hcl]
    exact List.take_left' (by simp)
  · rw [hpad, hcl]
    rw [List.drop_left' (by simp)]
    have harith : s.itemSeq.length - maxLen =
        s.itemSeq.length - min s.itemSeq.length maxLen := by omega
    rw [harith]

theorem C7_witness :
    1 ≤ 4 ∧
    (Row.mk 0 1 [3, 3, 3, 0] 1) ∈
      allRows (process_letter_data 4 [(0, [0, 1, 2])]) ∧
    (∃ s : Sample,
      (s ∈ (convert_to_rearec_format [(0, [0, 1, 2])]).1 ∨
       s ∈ (convert_to_rearec_format [(0, [0, 1, 2])]).2.1 ∨
       s ∈ (convert_to_rearec_format [(0, [0, 1, 2])]).2.2) ∧
      (Row.mk 0 1 [3, 3, 3, 0] 1).userId = s.userId ∧
      (Row.mk 0 1 [3, 3, 3, 0] 1).targetItemId = s.itemId ∧
      (Row.mk 0 1 [3, 3, 3, 0] 1).contextLength = min s.itemSeq.length 4 ∧
      (Row.mk 0 1 [3, 3, 3, 0] 1).contextLength ≤ 4 ∧
      (Row.mk 0 1 [3, 3, 3, 0] 1).paddedContext.length = 4 ∧
      (Row.mk 0 1 [3, 3, 3, 0] 1).paddedContext.take
          (4 - (Row.mk 0 1 [3, 3, 3, 0] 1).contextLength) =
        List.replicate (4 - (Row.mk 0 1 [3, 3, 3, 0] 1).contextLength)
          (n_items [(0, [0, 1, 2])] - 1) ∧
      (Row.mk 0 1 [3, 3, 3, 0] 1).paddedContext.drop
          (4 - (Row.mk 0 1 [3, 3, 3, 0] 1).contextLength) =
        s.itemSeq.drop (s.itemSeq.length -
          (Row.mk 0 1 [3, 3, 3, 0] 1).contextLength)) :=
  ⟨by decide, by decide,
    C7_truncation_padding [(0, [0, 1, 2])] 4 (Row.mk 0 1 [3, 3, 3, 0] 1)
      (by decide) (by decide)⟩

/-- Claim C8.  `n_users` is the user count plus 1, `n_items` is the
maximum item id over all sequences plus 2 (every item id is at most
`n_items - 2` and that bound is attained), and the padding sentinel
`n_items - 1` never occurs as a `target_item_id` of a generated row. -/
theorem C8_stats (inters : List (Nat × List Nat)) (maxLen : Nat) (r : Row)
    (hne : allItems inters ≠ [])
    (hr : r ∈ allRows (process_letter_data maxLen inters)) :
    n_users inters = inters.length + 1 ∧
    (∀ x ∈ allItems inters, x + 2 ≤ n_items inters) ∧
    (∃ x ∈ allItems inters, x + 2 = n_items inters) ∧
    r.targetItemId ≠ n_items inters - 1 := by
  refine ⟨rfl, ?_, ?_, ?_⟩
  · intro x hx
    have := mem_le_foldl_max hx 0
    unfold n_items
    omega
  · rcases foldl_max_eq_or_mem (allItems inters) 0 with h | h
    · obtain ⟨y, hy⟩ := List.exists_mem_of_ne_nil _ hne
      have hy2 := mem_le_foldl_max hy 0
      refine ⟨y, hy, ?_⟩
      unfold n_items
      omega
    · exact ⟨_, h, rfl⟩
  · obtain ⟨s, hsplit, rfl⟩ := mem_allRows hr
    obtain ⟨p, hp, hmem⟩ := convert_mem hsplit
    have hid : s.itemId ∈ p.2 := userSamples_itemId_mem hmem
    have hall : s.itemId ∈ allItems inters :=
      List.mem_flatMap.mpr ⟨p, hp, hid⟩
    have hle := mem_le_foldl_max hall 0
    have ht : (toRow maxLen (n_items inters) s).targetItemId = s.itemId := rfl
    rw [ht]
    unfold n_items
    omega

theorem C8_witness :
    allItems [(0, [0, 1, 2])] ≠ [] ∧
    (Row.mk 0 1 [3, 3, 3, 0] 1) ∈
      allRows (process_letter_data 4 [(0, [0, 1, 2])]) ∧
    (n_users [(0, [0, 1, 2])] =
        ([(0, [0, 1, 2])] : List (Nat × List Nat)).length + 1 ∧
      (∀ x ∈ allItems [(0, [0, 1, 2])], x + 2 ≤ n_items [(0, [0, 1, 2])]) ∧
      (∃ x ∈ allItems [(0, [0, 1, 2])], x + 2 = n_items [(0, [0, 1, 2])]) ∧
      (Row.mk 0 1 [3, 3, 3, 0] 1).targetItemId ≠
        n_items [(0, [0, 1, 2])] - 1) :=
  ⟨by decide, by decide,
    C8_stats [(0, [0, 1, 2])] 4 (Row.mk 0 1 [3, 3, 3, 0] 1)
      (by decide) (by decide)⟩

/-- Claim C10.  Every generated row, in every split, has
`context_length ≥ 1`: the train window index starts at 1 and qualifying
users have at least 3 items, so no sample ever has an empty (all-PAD)
context. -/
theorem C10_contextLength_pos (inters : List (Nat × List Nat))
    (maxLen : Nat) (r : Row) (hm : 1 ≤ maxLen)
    (hr : r ∈ allRows (process_letter_data maxLen inters)) :
    1 ≤ r.contextLength := by
  obtain ⟨s, hsplit, rfl⟩ := mem_allRows hr
  obtain ⟨p, hp, hmem⟩ := convert_mem hsplit
  have hne := userSamples_itemSeq_ne_nil hmem
  rw [toRow_contextLength _ _ _ hm]
  have hpos : 0 < s.itemSeq.length := List.length_pos.mpr hne
  omega

theorem C10_witness :
    1 ≤ 4 ∧
    (Row.mk 0 1 [3, 3, 3, 0] 1) ∈
      allRows (process_letter_data 4 [(0, [0, 1, 2])]) ∧
    1 ≤ (Row.mk 0 1 [3, 3, 3, 0] 1).contextLength :=
  ⟨by decide, by decide,
    C10_contextLength_pos [(0, [0, 1, 2])] 4 (Row.mk 0 1 [3, 3, 3, 0] 1)
      (by decide) (by decide)⟩

theorem load_yelp_line_error {d : YelpRecord}
    (h : d.user_id = none ∨ d.business_id = none ∨ d.stars = none ∨
      d.date = none) :
    ∃ e, load_yelp_line d = Except.error e := by
  obtain ⟨u, b, s, t⟩ := d
  cases u <;> cases b <;> cases s <;> cases t <;>
    first
      | exact ⟨"user_id", rfl⟩
      | exact ⟨"business_id", rfl⟩
      | exact ⟨"stars", rfl⟩
      | exact ⟨"date", rfl⟩
      | simp at h

theorem load_yelp_rows_error {lines : List YelpRecord}
    (h : ∃ d ∈ lines, d.user_id = none ∨ d.business_id = none ∨
      d.stars = none ∨ d.date = none) :
    ∃ e, load_yelp_rows lines = Except.error e := by
  induction lines with
  | nil => simp at h
  | cons d rest ih =>
    obtain ⟨d', hd', hmal⟩ := h
    rcases List.mem_cons.mp hd' with rfl | hmem
    · obtain ⟨e, he⟩ := load_yelp_line_error hmal
      exact ⟨e, by simp only [load_yelp_rows, he]⟩
    · cases hline : load_yelp_line d with
      | error e => exact ⟨e, by simp only [load_yelp_rows, hline]⟩
      | ok x =>
        obtain ⟨e, he⟩ := ih ⟨d', hmem, hmal⟩
        exact ⟨e, by simp only [load_yelp_rows, hline, he]⟩

/-- Claim C4 counterexample.  An input whose second record lacks the
`stars` field makes the Yelp loader raise `KeyError("stars")` and abort
the whole load — the record is not dropped and processing does not
continue, refuting the drop-and-continue claim. -/
theorem C4_counterexample :
    load_yelp_data
        [⟨some "u1", some "b1", some 5, some 100⟩,
         ⟨some "u2", some "b2", none, some 200⟩] 3 =
      Except.error "stars" ∧
    load_yelp_data
        [⟨some "u1", some "b1", some 5, some 100⟩,
         ⟨some "u2", some "b2", none, some 200⟩] 3 ≠
      Except.ok [⟨"u1", "b1", 5, 100⟩] := by
  constructor
  · rfl
  · intro hcontra
    rw [show load_yelp_data
        [⟨some "u1", some "b1", some 5, some 100⟩,
         ⟨some "u2", some "b2", none, some 200⟩] 3 =
      Except.error "stars" from rfl] at hcontra
    exact Except.noConfusion hcontra

/-- Claim C4 (amended).  Whenever the input contains a record missing one
of the four required fields, the Yelp loader fails with a `KeyError`
naming a missing field; no record is dropped, no count of drops exists,
and no result is produced. -/
theorem C4_amended (lines : List YelpRecord) (threshold : Int)
    (h : ∃ d ∈ lines, d.user_id = none ∨ d.business_id = none ∨
      d.stars = none ∨ d.date = none) :
    ∃ e, load_yelp_data lines threshold = Except.error e := by
  obtain ⟨e, he⟩ := load_yelp_rows_error h
  exact ⟨e, by simp only [load_yelp_data, he]⟩

theorem C4_witness :
    (∃ d ∈ [(⟨none, some "b", some 4, some 7⟩ : YelpRecord)],
      d.user_id = none ∨ d.business_id = none ∨ d.stars = none ∨
        d.date = none) ∧
    ∃ e, load_yelp_data [(⟨none, some "b", some 4, some 7⟩ : YelpRecord)] 3 =
      Except.error e :=
  ⟨by decide, C4_amended [⟨none, some "b", some 4, some 7⟩] 3 (by decide)⟩

/-- Claim C9.  The tokenized-index lookup returns exactly the queried ids
present in the index (absent ids omitted, nothing raised); the
feature-record lookup does the same when the capability flag is on, and
when the flag is off it returns the explicit unavailable result `none`,
distinct from an empty mapping, whatever the queried ids. -/
theorem C9_lookups (indices : List (Nat × List String))
    (feats : List (Nat × ItemFeature)) (ids : List Nat) (id : Nat) :
    get_item_features false feats ids = none ∧
    get_item_features false feats ids ≠ some [] ∧
    (id ∈ (get_item_tokens indices ids).map Prod.fst ↔
      id ∈ ids ∧ (List.lookup id indices).isSome) ∧
    (id ∈ ((get_item_features true feats ids).getD []).map Prod.fst ↔
      id ∈ ids ∧ (List.lookup id feats).isSome) := by
  refine ⟨rfl, by simp [get_item_features], ?_, ?_⟩
  · exact lookupSubset_keys indices ids id
  · exact lookupSubset_keys feats ids id

end ReaRec
